import Mathlib

/-!
Shallow embedding of the iroh-dns-server admission-control subsystem:
`src/iroh-dns-server/src/http/rate_limiting.rs` (rate-limit mode, governor
layer construction, parameters of the garbage-collection thread) and
`src/iroh-dns-server/src/config.rs` (configuration loading, metrics address).

The token-bucket decision engine itself lives in the external `governor` and
`tower_governor` crates, outside this repository's sources; wherever a
property depends on it, the algorithm is modelled from the specification
(sections 3, 4.2, 4.3, 5 and 6 of the design document), as marked on each
definition.
-/

namespace IrohDns

/-- Decision of the limiter for one request: admit it, or reject it with a
retry-after hint (in seconds). -/
inductive Decision where
  | allow : Decision
  | deny (retry_after : ℚ) : Decision
deriving DecidableEq

/-- Modelled from the spec: the per-key token-bucket record (BucketState,
spec section 3); the bucket store lives in the external governor crate.
Tokens and timestamps are rational numbers (seconds). -/
structure BucketState where
  tokens : ℚ
  last_update : ℚ
deriving DecidableEq

/-- Modelled from the spec: the refill step of Limiter.check (spec 4.2,
step 2): elapsed time times refill rate is added to the tokens, clamped at
the capacity, and the timestamp advances to now. -/
def refill (cap rate : ℚ) (b : BucketState) (now : ℚ) : BucketState :=
  { tokens := min cap (b.tokens + (now - b.last_update) * rate), last_update := now }

/-- Modelled from the spec: steps 3 and 4 of Limiter.check: after refilling,
consume one token and allow if at least one token is present, otherwise deny
with retry_after = (1 - tokens) / rate. -/
def checkBucket (cap rate : ℚ) (b : BucketState) (now : ℚ) : Decision × BucketState :=
  if 1 ≤ (refill cap rate b now).tokens then
    (Decision.allow, { tokens := (refill cap rate b now).tokens - 1, last_update := now })
  else
    (Decision.deny ((1 - (refill cap rate b now).tokens) / rate), refill cap rate b now)

/-- Modelled from the spec: BucketStore, a mapping from string identity to
BucketState (spec section 3). -/
abbrev Store : Type := String → Option BucketState

/-- The store before any request was ever seen: no key has a bucket. -/
def emptyStore : Store := fun _ => none

/-- Write a key's bucket back into the store. -/
def Store.insert (s : Store) (k : String) (b : BucketState) : Store :=
  fun k2 => if k2 = k then some b else s k2

/-- Modelled from the spec: step 1 of Limiter.check: a key absent from the
store gets a fresh bucket with tokens = capacity and last_update = now. -/
def bucketFor (cap : ℚ) (s : Store) (k : String) (now : ℚ) : BucketState :=
  match s k with
  | none => { tokens := cap, last_update := now }
  | some b => b

/-- Modelled from the spec: Limiter.check (spec 4.2): look the key up
(creating its bucket lazily), run the bucket step, write the bucket back.
Per spec section 5, per-key mutation is serialized, so each check is an
atomic step. -/
def check (cap rate : ℚ) (s : Store) (k : String) (now : ℚ) : Decision × Store :=
  ((checkBucket cap rate (bucketFor cap s k now) now).1,
   Store.insert s k (checkBucket cap rate (bucketFor cap s k now) now).2)

/-- Run a sequence of (key, time) requests through the limiter, returning
the decision list and the final store. Per spec section 5, any interleaving
of concurrent requests executes as some sequential order of atomic checks,
which this function captures. -/
def runStore (cap rate : ℚ) : Store → List (String × ℚ) → List Decision × Store
  | s, [] => ([], s)
  | s, r :: rest =>
    ((check cap rate s r.1 r.2).1 ::
        (runStore cap rate (check cap rate s r.1 r.2).2 rest).1,
     (runStore cap rate (check cap rate s r.1 r.2).2 rest).2)

/-- Number of admitted requests in a decision list. -/
def countAllows (l : List Decision) : ℕ :=
  l.countP fun d => decide (d = Decision.allow)

/-- Number of rejected requests in a decision list. -/
def countDenies (l : List Decision) : ℕ :=
  l.countP fun d => !(decide (d = Decision.allow))

/-- Modelled from the spec: the evictor step (spec 4.3, the source calls the
external governor retain_recent): entries whose last_update is older than
the eviction horizon are removed, all others are kept. -/
def evict (horizon now : ℚ) (s : Store) : Store := fun k =>
  match s k with
  | none => none
  | some b => if b.last_update < now - horizon then none else some b

/-- The bucket invariant of spec section 3: 0 ≤ tokens ≤ capacity. -/
def Inv (cap : ℚ) (b : BucketState) : Prop := 0 ≤ b.tokens ∧ b.tokens ≤ cap

/-- Every bucket present in the store satisfies the bucket invariant. -/
def StoreInv (cap : ℚ) (s : Store) : Prop := ∀ k b, s k = some b → Inv cap b

/-- Rate-limit mode from the configuration (RateLimitConfig in
rate_limiting.rs): Disabled, Simple (peer-IP key extraction) or Smart
(proxy-aware key extraction). Simple is the serde default. -/
inductive RateLimitConfig where
  | disabled
  | simple
  | smart
deriving DecidableEq

/-- The two tower_governor key extractors named in rate_limiting.rs. -/
inductive KeyExtractorKind where
  | peerIp
  | smartIp
deriving DecidableEq

/-- The GovernorConfigBuilder state used by create: the per_second argument,
the burst size and the key-extractor choice. The numeric defaults are
irrelevant to create, which overwrites both before finishing; they are
modelled as 0. The default key extractor is PeerIpKeyExtractor (the key
extractor type parameter of the builder produced by default() in the
source). -/
structure GovernorConfigBuilder where
  perSecondArg : ℕ
  burst : ℕ
  extractorKind : KeyExtractorKind
deriving DecidableEq

/-- The builder produced by GovernorConfigBuilder::default(). -/
def GovernorConfigBuilder.default : GovernorConfigBuilder :=
  { perSecondArg := 0, burst := 0, extractorKind := KeyExtractorKind.peerIp }

/-- Setter for the replenish parameter (the argument of per_second). -/
def GovernorConfigBuilder.per_second (b : GovernorConfigBuilder) (n : ℕ) :
    GovernorConfigBuilder :=
  { b with perSecondArg := n }

/-- Setter for the burst size (the bucket capacity). -/
def GovernorConfigBuilder.burst_size (b : GovernorConfigBuilder) (n : ℕ) :
    GovernorConfigBuilder :=
  { b with burst := n }

/-- The key_extractor setter returns a NEW builder carrying the given
extractor: in the Rust source the builder's key-extractor type parameter
changes with this call, so a new builder value is produced and the receiver
is left unchanged. -/
def GovernorConfigBuilder.key_extractor (b : GovernorConfigBuilder)
    (k : KeyExtractorKind) : GovernorConfigBuilder :=
  { b with extractorKind := k }

/-- A finished governor configuration. -/
structure GovernorConfig where
  perSecondArg : ℕ
  burst : ℕ
  extractorKind : KeyExtractorKind
deriving DecidableEq

/-- Modelled from the spec: GovernorConfigBuilder::finish lives in the
external tower_governor crate; per spec sections 4.4 and 7, limiter
construction fails exactly when a policy parameter is invalid (zero burst
size or zero replenish parameter), and otherwise yields the finished
configuration. -/
def GovernorConfigBuilder.finish (b : GovernorConfigBuilder) : Option GovernorConfig :=
  if b.burst ≠ 0 ∧ b.perSecondArg ≠ 0 then
    some { perSecondArg := b.perSecondArg, burst := b.burst, extractorKind := b.extractorKind }
  else
    none

/-- The rate-limiting layer returned by create, together with the period of
the garbage-collection thread it spawns. -/
structure GovernorLayer where
  config : GovernorConfig
  gcIntervalSecs : ℕ
deriving DecidableEq

/-- Result of create: no layer (Disabled mode), a fatal startup abort (the
expect call on finish), or a layer. -/
inductive CreateResult where
  | noLayer
  | startupAbort
  | layer (l : GovernorLayer)
deriving DecidableEq

/-- Embedding of create in rate_limiting.rs. Note on the Smart branch: the
source statement governor_conf_builder.key_extractor(SmartIpKeyExtractor)
produces a new builder (see GovernorConfigBuilder.key_extractor above) and
discards it, so finish runs on the original peer-IP builder; the declared
Rust return type of create, Option of GovernorLayer over
PeerIpKeyExtractor, matches this. -/
def create (cfg : RateLimitConfig) : CreateResult :=
  match cfg with
  | RateLimitConfig.disabled => CreateResult.noLayer
  | _ =>
    let b := (GovernorConfigBuilder.default.per_second 4).burst_size 2
    let _discarded :=
      if cfg = RateLimitConfig.smart then
        some (b.key_extractor KeyExtractorKind.smartIp)
      else none
    match b.finish with
    | none => CreateResult.startupAbort
    | some conf => CreateResult.layer { config := conf, gcIntervalSecs := 60 }

/-- The key extractor of the layer built by create, when a layer is built. -/
def extractorOfResult : CreateResult → Option KeyExtractorKind
  | CreateResult.layer l => some l.config.extractorKind
  | _ => none

/-- The numeric parameters of the layer built by create: per_second
argument, burst size, and GC interval in seconds. -/
def layerParams : CreateResult → Option (ℕ × ℕ × ℕ)
  | CreateResult.layer l => some (l.config.perSecondArg, l.config.burst, l.gcIntervalSecs)
  | _ => none

/-- Modelled from the spec: the middleware wiring (the HTTP server that
consumes create's layer is not under src). Disabled mode yields a no-op
passthrough: every request is allowed and no bucket is ever created. An
enabled mode runs the limiter with the layer's parameters, reading the
per_second argument as tokens added per second and the burst size as the
capacity (spec section 6). A startup abort serves no requests. -/
def runSystem (cfg : RateLimitConfig) (reqs : List (String × ℚ)) :
    List Decision × Store :=
  match create cfg with
  | CreateResult.noLayer => (reqs.map fun _ => Decision.allow, emptyStore)
  | CreateResult.startupAbort => ([], emptyStore)
  | CreateResult.layer l =>
      runStore (l.config.burst : ℚ) (l.config.perSecondArg : ℚ) emptyStore reqs

/-- A socket address: IPv4 quadruple plus port. -/
structure SocketAddr where
  ip : ℕ × ℕ × ℕ × ℕ
  port : ℕ
deriving DecidableEq

/-- DEFAULT_METRICS_ADDR in config.rs: localhost, port 9117. -/
def DEFAULT_METRICS_ADDR : SocketAddr := { ip := (127, 0, 0, 1), port := 9117 }

/-- MetricsConfig in config.rs. -/
structure MetricsConfig where
  disabled : Bool
  bind_addr : Option SocketAddr
deriving DecidableEq

/-- Server configuration (config.rs). Only the metrics section is touched
by the claims below; the http, https, dns and mainline sections play no
role in metrics_addr or in the load error paths and are omitted. -/
structure Config where
  metrics : Option MetricsConfig
deriving DecidableEq

/-- Embedding of Config::metrics_addr in config.rs. -/
def Config.metrics_addr (c : Config) : Option SocketAddr :=
  match c.metrics with
  | none => some DEFAULT_METRICS_ADDR
  | some conf =>
    match conf.disabled with
    | true => none
    | false => some (conf.bind_addr.getD DEFAULT_METRICS_ADDR)

/-- Result of Config::load. -/
inductive LoadResult where
  | ok (c : Config)
  | err (msg : String)
deriving DecidableEq

/-- The with_context wrapper of anyhow surfaces an error as the context
string followed by the underlying cause. -/
def withContext (ctx msg : String) : String := ctx ++ ": " ++ msg

/-- Embedding of Config::load in config.rs: read the file (a read error is
wrapped with the context "failed to read" plus the path), then parse the
TOML (a parse error is propagated as-is by the question-mark operator, with
no context attached). The file system and the TOML parser are the function
parameters. -/
def load (path : String) (readToString : String → Except String String)
    (parseToml : String → Except String Config) : LoadResult :=
  match readToString path with
  | Except.error e => LoadResult.err (withContext ("failed to read " ++ path) e)
  | Except.ok s =>
    match parseToml s with
    | Except.error e => LoadResult.err e
    | Except.ok c => LoadResult.ok c

/-- Does the needle string occur inside the hay string? Used to state
whether an error message surfaces the offending file path. -/
def occursIn (needle hay : String) : Bool :=
  decide (List.IsInfix needle.data hay.data)

/-- C2: with capacity 2 (the burst size create passes) and the default
Simple mode, a key never seen before admits exactly two requests at one
instant, and the third request at the same instant is denied (with a
0.25 second retry hint). -/
theorem claim2_burst_admission (k : String) (t : ℚ) :
    (runSystem RateLimitConfig.simple [(k, t), (k, t), (k, t)]).1 =
      [Decision.allow, Decision.allow, Decision.deny (1/4)] := by
  have h : (runSystem RateLimitConfig.simple [(k, t), (k, t), (k, t)]).1 =
      (runStore ((2:ℕ):ℚ) ((4:ℕ):ℚ) emptyStore [(k, t), (k, t), (k, t)]).1 := rfl
  rw [h]
  norm_num [runStore, check, checkBucket, refill, bucketFor, Store.insert, emptyStore, min_def]

/-- C1: with capacity 2 and refill rate 4 tokens per second (0.25 seconds
per token), after the third request is denied at time 0, a request at time
0.25 is admitted exactly once and a second request at time 0.25 is
denied. -/
theorem claim1_refill_timing (k : String) :
    (runSystem RateLimitConfig.simple [(k, 0), (k, 0), (k, 0), (k, 1/4), (k, 1/4)]).1 =
      [Decision.allow, Decision.allow, Decision.deny (1/4),
       Decision.allow, Decision.deny (1/4)] := by
  have h : (runSystem RateLimitConfig.simple [(k, 0), (k, 0), (k, 0), (k, 1/4), (k, 1/4)]).1 =
      (runStore ((2:ℕ):ℚ) ((4:ℕ):ℚ) emptyStore
        [(k, 0), (k, 0), (k, 0), (k, 1/4), (k, 1/4)]).1 := rfl
  rw [h]
  norm_num [runStore, check, checkBucket, refill, bucketFor, Store.insert, emptyStore, min_def]

/-- C3: in Disabled mode create returns no layer, every request passes
through allowed and no bucket is ever created; in Simple and Smart modes
create returns a layer. -/
theorem claim3_disabled_passthrough (reqs : List (String × ℚ)) :
    create RateLimitConfig.disabled = CreateResult.noLayer ∧
    (runSystem RateLimitConfig.disabled reqs).1 = reqs.map (fun _ => Decision.allow) ∧
    (runSystem RateLimitConfig.disabled reqs).2 = emptyStore ∧
    (∃ l, create RateLimitConfig.simple = CreateResult.layer l) ∧
    (∃ l, create RateLimitConfig.smart = CreateResult.layer l) :=
  ⟨rfl, rfl, rfl, ⟨_, rfl⟩, ⟨_, rfl⟩⟩

/-- C6 evidence: the layer built for Smart mode carries the peer-IP key
extractor, just like Simple mode; indeed create yields the very same result
for both enabled modes, because the builder returned by the key_extractor
call is discarded in the source. -/
theorem claim6_smart_extractor_bug :
    extractorOfResult (create RateLimitConfig.smart) = some KeyExtractorKind.peerIp ∧
    extractorOfResult (create RateLimitConfig.simple) = some KeyExtractorKind.peerIp ∧
    create RateLimitConfig.smart = create RateLimitConfig.simple :=
  ⟨rfl, rfl, rfl⟩

/-- C7: for both enabled modes the layer is built with the same fixed
parameters: per_second argument 4, burst size 2, GC interval 60 seconds;
none of them vary with the configuration input. -/
theorem claim7_fixed_parameters :
    layerParams (create RateLimitConfig.simple) = some (4, 2, 60) ∧
    layerParams (create RateLimitConfig.smart) = some (4, 2, 60) :=
  ⟨rfl, rfl⟩

/-- C9: with the fixed parameters of create (burst size 2, per_second 4)
the governor configuration always finishes, so the fatal expect branch is
unreachable: every mode makes create return either no layer or a layer,
never a startup abort. -/
theorem claim9_finish_infallible :
    ((GovernorConfigBuilder.default.per_second 4).burst_size 2).finish.isSome = true ∧
    ∀ cfg, create cfg = CreateResult.noLayer ∨ ∃ l, create cfg = CreateResult.layer l := by
  refine ⟨rfl, ?_⟩
  intro cfg
  cases cfg
  · exact Or.inl rfl
  · exact Or.inr ⟨_, rfl⟩
  · exact Or.inr ⟨_, rfl⟩

theorem countAllows_cons_allow (l : List Decision) :
    countAllows (Decision.allow :: l) = countAllows l + 1 := by
  simp [countAllows, List.countP_cons]

theorem countAllows_cons_deny (r : ℚ) (l : List Decision) :
    countAllows (Decision.deny r :: l) = countAllows l := by
  simp [countAllows, List.countP_cons]

theorem countAllows_add_countDenies (l : List Decision) :
    countAllows l + countDenies l = l.length := by
  induction l with
  | nil => simp [countAllows, countDenies]
  | cons d rest ih =>
    cases d <;> simp [countAllows, countDenies, List.countP_cons] at * <;> omega

theorem runStore_length (cap rate : ℚ) :
    ∀ (reqs : List (String × ℚ)) (s : Store),
      (runStore cap rate s reqs).1.length = reqs.length := by
  intro reqs
  induction reqs with
  | nil => intro s; simp [runStore]
  | cons r rest ih => intro s; simp [runStore, ih]

theorem checkBucket_same_instant_allow (cap rate t now : ℚ) (htc : t ≤ cap)
    (h1 : (1:ℚ) ≤ t) :
    checkBucket cap rate { tokens := t, last_update := now } now =
      (Decision.allow, { tokens := t - 1, last_update := now }) := by
  have hr : refill cap rate { tokens := t, last_update := now } now =
      { tokens := t, last_update := now } := by
    simp [refill, min_eq_right htc]
  simp [checkBucket, hr, h1]

theorem checkBucket_same_instant_deny (cap rate t now : ℚ) (htc : t ≤ cap)
    (h1 : ¬ (1:ℚ) ≤ t) :
    checkBucket cap rate { tokens := t, last_update := now } now =
      (Decision.deny ((1 - t) / rate), { tokens := t, last_update := now }) := by
  have hr : refill cap rate { tokens := t, last_update := now } now =
      { tokens := t, last_update := now } := by
    simp [refill, min_eq_right htc]
  simp [checkBucket, hr, h1]

/-- Counting lemma behind C4: a burst of n identical checks at one instant
on a single key admits exactly min n t requests, where t is the token count
the key starts from (fresh keys start from the capacity). -/
theorem runStore_same_instant_count (K : ℕ) (rate now : ℚ) (k : String) :
    ∀ (n : ℕ) (s : Store) (t : ℕ), t ≤ K →
      (s k = none ∧ t = K ∨ s k = some { tokens := (t : ℚ), last_update := now }) →
      countAllows (runStore (K : ℚ) rate s (List.replicate n (k, now))).1 = min n t := by
  intro n
  induction n with
  | zero =>
    intro s t ht hs
    simp [runStore, countAllows]
  | succ n ih =>
    intro s t ht hs
    have hb : bucketFor (K : ℚ) s k now = { tokens := (t : ℚ), last_update := now } := by
      rcases hs with ⟨h1, h2⟩ | h1
      · subst h2; simp [bucketFor, h1]
      · simp [bucketFor, h1]
    have htc : (t : ℚ) ≤ (K : ℚ) := by exact_mod_cast ht
    by_cases h1 : 1 ≤ t
    · have h1q : (1 : ℚ) ≤ (t : ℚ) := by exact_mod_cast h1
      have hcast : (t : ℚ) - 1 = ((t - 1 : ℕ) : ℚ) := by
        rw [Nat.cast_sub h1]; norm_num
      have hcb : checkBucket (K : ℚ) rate (bucketFor (K : ℚ) s k now) now =
          (Decision.allow, { tokens := ((t - 1 : ℕ) : ℚ), last_update := now }) := by
        rw [hb, checkBucket_same_instant_allow (K : ℚ) rate (t : ℚ) now htc h1q, hcast]
      have ihs := ih
        (Store.insert s k { tokens := ((t - 1 : ℕ) : ℚ), last_update := now }) (t - 1)
        (le_trans (Nat.sub_le t 1) ht) (Or.inr (by simp [Store.insert]))
      rw [List.replicate_succ]
      simp only [runStore, check, hcb]
      rw [countAllows_cons_allow, ihs]
      omega
    · have h1q : ¬ (1 : ℚ) ≤ (t : ℚ) := by exact_mod_cast h1
      have hcb : checkBucket (K : ℚ) rate (bucketFor (K : ℚ) s k now) now =
          (Decision.deny ((1 - (t : ℚ)) / rate),
           { tokens := (t : ℚ), last_update := now }) := by
        rw [hb, checkBucket_same_instant_deny (K : ℚ) rate (t : ℚ) now htc h1q]
      have ihs := ih
        (Store.insert s k { tokens := (t : ℚ), last_update := now }) t
        ht (Or.inr (by simp [Store.insert]))
      rw [List.replicate_succ]
      simp only [runStore, check, hcb]
      rw [countAllows_cons_deny, ihs]
      omega

/-- C4: n requests on one fresh key at the same instant, with capacity K,
admit exactly min n K and deny the rest. Per spec section 5 per-key
mutation is serialized, so any interleaving of the n concurrent checks
executes them in some sequential order; the n checks are identical, so
every order is the run modelled here, with no double-counting and no lost
updates. -/
theorem claim4_concurrent_admission (n K : ℕ) (rate now : ℚ) (k : String) :
    countAllows (runStore (K : ℚ) rate emptyStore (List.replicate n (k, now))).1 =
      min n K ∧
    countDenies (runStore (K : ℚ) rate emptyStore (List.replicate n (k, now))).1 =
      n - min n K := by
  have h := runStore_same_instant_count K rate now k n emptyStore K le_rfl
    (Or.inl ⟨rfl, rfl⟩)
  have hlen := runStore_length (K : ℚ) rate (List.replicate n (k, now)) emptyStore
  have hsum := countAllows_add_countDenies
    (runStore (K : ℚ) rate emptyStore (List.replicate n (k, now))).1
  rw [List.length_replicate] at hlen
  exact ⟨h, by omega⟩

theorem checkBucket_inv (cap rate now : ℚ) (b : BucketState) (hcap : 0 ≤ cap)
    (hrate : 0 ≤ rate) (hb : Inv cap b) (hlu : b.last_update ≤ now) :
    Inv cap (checkBucket cap rate b now).2 := by
  have h0 : 0 ≤ (refill cap rate b now).tokens := by
    simp only [refill]
    exact le_min hcap (add_nonneg hb.1 (mul_nonneg (sub_nonneg.mpr hlu) hrate))
  have h2 : (refill cap rate b now).tokens ≤ cap := min_le_left _ _
  unfold checkBucket
  split_ifs with h1
  · exact ⟨by simp only; linarith, by simp only; linarith⟩
  · exact ⟨h0, h2⟩

/-- C5: the bucket invariant 0 ≤ tokens ≤ capacity holds for every bucket
in the store after a check (which refills, optionally consumes, and lazily
creates fresh buckets at full capacity) and after an eviction cycle,
provided it held before and time moves forward on the checked key. -/
theorem claim5_bucket_invariant (cap rate now horizon tNow : ℚ) (s : Store)
    (k : String) (hcap : 0 ≤ cap) (hrate : 0 ≤ rate) (hs : StoreInv cap s)
    (hlu : ∀ b, s k = some b → b.last_update ≤ now) :
    StoreInv cap (check cap rate s k now).2 ∧ StoreInv cap (evict horizon tNow s) := by
  constructor
  · intro k2 b2 h2
    simp only [check, Store.insert] at h2
    split at h2
    · cases h2
      have hbinv : Inv cap (bucketFor cap s k now) ∧
          (bucketFor cap s k now).last_update ≤ now := by
        cases hsk : s k with
        | none =>
          simp only [bucketFor, hsk]
          exact ⟨⟨hcap, le_rfl⟩, le_rfl⟩
        | some b => exact ⟨by simpa [bucketFor, hsk] using hs k b hsk,
            by simpa [bucketFor, hsk] using hlu b hsk⟩
      exact checkBucket_inv cap rate now _ hcap hrate hbinv.1 hbinv.2
    · exact hs k2 b2 h2
  · intro k2 b2 h2
    simp only [evict] at h2
    cases hsk : s k2 with
    | none => rw [hsk] at h2; cases h2
    | some b =>
      rw [hsk] at h2
      have h3 : (if b.last_update < tNow - horizon then none else some b) = some b2 := h2
      by_cases hlt : b.last_update < tNow - horizon
      · rw [if_pos hlt] at h3; cases h3
      · rw [if_neg hlt] at h3
        cases h3
        exact hs k2 _ hsk

/-- Witness for C5 at concrete inputs: capacity 2, rate 4, a check on a
fresh key of the empty store at time 0 and an eviction with horizon 60. -/
theorem claim5_witness :
    StoreInv 2 (check 2 4 emptyStore "a" 0).2 ∧ StoreInv 2 (evict 60 0 emptyStore) :=
  claim5_bucket_invariant 2 4 0 60 0 emptyStore "a" (by decide) (by decide)
    (fun _ _ h => nomatch h) (fun _ h => nomatch h)

/-- C8 (amended): Config::load fails when the file cannot be read and when
it cannot be parsed; the read error is surfaced with the offending file
path (through the with_context wrapper), while the parse error is returned
as the bare TOML error, without the path. -/
theorem claim8_load_error_paths (path e s : String)
    (readToString : String → Except String String)
    (parseToml : String → Except String Config) :
    (readToString path = Except.error e →
      load path readToString parseToml =
        LoadResult.err (withContext ("failed to read " ++ path) e) ∧
      occursIn path (withContext ("failed to read " ++ path) e) = true) ∧
    (readToString path = Except.ok s → ∀ e2, parseToml s = Except.error e2 →
      load path readToString parseToml = LoadResult.err e2) := by
  constructor
  · intro h
    refine ⟨by simp [load, h], decide_eq_true ?_⟩
    refine ⟨("failed to read ").data, (": " ++ e).data, ?_⟩
    simp [withContext, List.append_assoc]
  · intro h e2 h2
    simp [load, h, h2]

/-- Witness for C8 (amended) at concrete inputs: a failing read and a
failing parse. -/
theorem claim8_witness :
    load "/c.toml" (fun _ => Except.error "gone") (fun _ => Except.error "eek") =
      LoadResult.err (withContext ("failed to read " ++ "/c.toml") "gone") ∧
    load "/c.toml" (fun _ => Except.ok "t") (fun _ => Except.error "eek") =
      LoadResult.err "eek" :=
  ⟨((claim8_load_error_paths "/c.toml" "gone" "t" (fun _ => Except.error "gone")
      (fun _ => Except.error "eek")).1 rfl).1,
   (claim8_load_error_paths "/c.toml" "gone" "t" (fun _ => Except.ok "t")
      (fun _ => Except.error "eek")).2 rfl "eek" rfl⟩

/-- C8 counterexample to the claim as stated: when the parse fails, the
error Config::load returns is the bare parse error, and the offending file
path does not occur in it. -/
theorem claim8_counterexample :
    load "/a/b.toml" (fun _ => Except.ok "x") (fun _ => Except.error "eof") =
      LoadResult.err "eof" ∧
    occursIn "/a/b.toml" "eof" = false := by
  exact ⟨rfl, by decide⟩

/-- C10: metrics_addr returns the default address 127.0.0.1:9117 when the
metrics section is absent, none when metrics.disabled is true, and
otherwise the configured bind_addr with the default as fallback. -/
theorem claim10_metrics_addr :
    (Config.metrics_addr { metrics := none } = some DEFAULT_METRICS_ADDR) ∧
    (∀ b, Config.metrics_addr { metrics := some { disabled := true, bind_addr := b } } = none) ∧
    (∀ b, Config.metrics_addr { metrics := some { disabled := false, bind_addr := b } } =
      some (b.getD DEFAULT_METRICS_ADDR)) ∧
    DEFAULT_METRICS_ADDR = { ip := (127, 0, 0, 1), port := 9117 } :=
  ⟨rfl, fun _ => rfl, fun _ => rfl, rfl⟩

end IrohDns
